import Mathlib

/-!
Shallow embedding of the settings navigation and value-mutation state
machine of `src/src/activities/settings/SettingsActivity.cpp`
(crosspoint-reader).  The rendering layer, the FreeRTOS task handling and
the sub-activities themselves are external collaborators; the embedding
covers the descriptor tables, `onEnter`'s state initialisation, `loop`'s
input handling and `toggleCurrentSetting`'s mutation/dispatch logic.
Side effects on collaborators (settings persistence, sub-screen launches,
leaving the screen) are recorded in an explicit `Effects` record.
-/

set_option autoImplicit false

namespace CrossPoint

/-- The four descriptor kinds of `SettingType` (header not in the sources;
the tag values are taken from their use in `SettingsActivity.cpp`). -/
inductive SettingType where
  | TOGGLE
  | ENUM
  | VALUE
  | ACTION
deriving DecidableEq, Repr

/-- Identifiers for the `bool CrossPointSettings::*` members referenced by
the descriptor tables. -/
inductive BoolField where
  | hyphenationEnabled
  | extraParagraphSpacing
  | textAntiAliasing
  | longPressChapterSkip
deriving DecidableEq, Repr

/-- Identifiers for the `uint8_t CrossPointSettings::*` members referenced
by the descriptor tables. -/
inductive EnumField where
  | sleepScreen
  | sleepScreenCoverMode
  | sleepScreenCoverFilter
  | statusBar
  | hideBatteryPercentage
  | refreshFrequency
  | uiTheme
  | fontFamily
  | fontSize
  | lineSpacing
  | paragraphAlignment
  | orientation
  | sideButtonLayout
  | shortPwrBtn
  | sleepTimeout
deriving DecidableEq, Repr

/-- Identifiers for the `int8_t CrossPointSettings::*` members referenced
by the descriptor tables. -/
inductive ValueField where
  | screenMargin
deriving DecidableEq, Repr

/-- A typed member pointer into `CrossPointSettings` (the C++ code stores a
member pointer whose pointee type matches the descriptor kind). -/
inductive BoundPtr where
  | toBool (f : BoolField)
  | toEnum (f : EnumField)
  | toValue (f : ValueField)
deriving DecidableEq, Repr

/-- `{min, max, step}` range of a `Value` descriptor. -/
structure ValueRange where
  min : Int
  max : Int
  step : Int
deriving DecidableEq, Repr

/-- One settings descriptor (`SettingInfo`).  `valuePtr` is present for
Toggle/Enum/Value descriptors and absent for Action descriptors. -/
structure SettingInfo where
  name : String
  type : SettingType
  valuePtr : Option BoundPtr
  enumValues : List String
  valueRange : ValueRange
deriving DecidableEq, Repr

/-- `SettingInfo::Toggle(name, ptr)` constructor. -/
def SettingInfo.Toggle (name : String) (f : BoolField) : SettingInfo :=
  { name := name, type := .TOGGLE, valuePtr := some (.toBool f),
    enumValues := [], valueRange := ⟨0, 0, 0⟩ }

/-- `SettingInfo::Enum(name, ptr, labels)` constructor. -/
def SettingInfo.Enum (name : String) (f : EnumField) (labels : List String) :
    SettingInfo :=
  { name := name, type := .ENUM, valuePtr := some (.toEnum f),
    enumValues := labels, valueRange := ⟨0, 0, 0⟩ }

/-- `SettingInfo::Value(name, ptr, range)` constructor. -/
def SettingInfo.Value (name : String) (f : ValueField) (r : ValueRange) :
    SettingInfo :=
  { name := name, type := .VALUE, valuePtr := some (.toValue f),
    enumValues := [], valueRange := r }

/-- `SettingInfo::Action(name)` constructor. -/
def SettingInfo.Action (name : String) : SettingInfo :=
  { name := name, type := .ACTION, valuePtr := none,
    enumValues := [], valueRange := ⟨0, 0, 0⟩ }

/-- The global `SETTINGS` object: the bound fields addressed by the member
pointers of the descriptor tables.  Booleans, `uint8_t` values (as `Nat`)
and `int8_t` values (as `Int`) are kept in three typed stores. -/
structure CrossPointSettings where
  boolField : BoolField → Bool
  enumField : EnumField → Nat
  intField : ValueField → Int

/-- Write the boolean member `f` of `SETTINGS`. -/
def CrossPointSettings.setBool (st : CrossPointSettings) (f : BoolField)
    (v : Bool) : CrossPointSettings :=
  { st with boolField := fun g => if g = f then v else st.boolField g }

/-- Write the `uint8_t` member `f` of `SETTINGS`. -/
def CrossPointSettings.setEnum (st : CrossPointSettings) (f : EnumField)
    (v : Nat) : CrossPointSettings :=
  { st with enumField := fun g => if g = f then v else st.enumField g }

/-- Write the `int8_t` member `f` of `SETTINGS`; the stored value is the
two's-complement truncation of `v` to 8 bits, as the C++ `int8_t`
assignment performs. -/
def CrossPointSettings.setInt (st : CrossPointSettings) (f : ValueField)
    (v : Int) : CrossPointSettings :=
  { st with intField := fun g => if g = f then (v + 128) % 256 - 128 else st.intField g }

/-- `constexpr int changeTabsMs = 700;` -/
def changeTabsMs : Int := 700

/-- `static constexpr size_t categoryCount = 4` (from the four-element
`categoryNames` table). -/
def categoryCount : Int := 4

/-- `constexpr int displaySettingsCount = 7;` -/
def displaySettingsCount : Int := 7

/-- The `displaySettings` table. -/
def displaySettings : List SettingInfo := [
  SettingInfo.Enum "Sleep Screen" .sleepScreen
    ["Dark", "Light", "Custom", "Cover", "None", "Cover + Custom"],
  SettingInfo.Enum "Sleep Screen Cover Mode" .sleepScreenCoverMode ["Fit", "Crop"],
  SettingInfo.Enum "Sleep Screen Cover Filter" .sleepScreenCoverFilter
    ["None", "Contrast", "Inverted"],
  SettingInfo.Enum "Status Bar" .statusBar
    ["None", "No Progress", "Full w/ Percentage", "Full w/ Progress Bar", "Progress Bar"],
  SettingInfo.Enum "Hide Battery %" .hideBatteryPercentage ["Never", "In Reader", "Always"],
  SettingInfo.Enum "Refresh Frequency" .refreshFrequency
    ["1 page", "5 pages", "10 pages", "15 pages", "30 pages"],
  SettingInfo.Enum "UI Theme" .uiTheme ["Classic", "Lyra"]]

/-- `constexpr int readerSettingsCount = 9;` -/
def readerSettingsCount : Int := 9

/-- The `readerSettings` table. -/
def readerSettings : List SettingInfo := [
  SettingInfo.Enum "Font Family" .fontFamily ["Bookerly", "Noto Sans", "Open Dyslexic"],
  SettingInfo.Enum "Font Size" .fontSize ["Small", "Medium", "Large", "X Large"],
  SettingInfo.Enum "Line Spacing" .lineSpacing ["Tight", "Normal", "Wide"],
  SettingInfo.Value "Screen Margin" .screenMargin ⟨5, 40, 5⟩,
  SettingInfo.Enum "Paragraph Alignment" .paragraphAlignment
    ["Justify", "Left", "Center", "Right"],
  SettingInfo.Toggle "Hyphenation" .hyphenationEnabled,
  SettingInfo.Enum "Reading Orientation" .orientation
    ["Portrait", "Landscape CW", "Inverted", "Landscape CCW"],
  SettingInfo.Toggle "Extra Paragraph Spacing" .extraParagraphSpacing,
  SettingInfo.Toggle "Text Anti-Aliasing" .textAntiAliasing]

/-- `constexpr int controlsSettingsCount = 4;` -/
def controlsSettingsCount : Int := 4

/-- The `controlsSettings` table. -/
def controlsSettings : List SettingInfo := [
  SettingInfo.Action "Remap Front Buttons",
  SettingInfo.Enum "Side Button Layout (reader)" .sideButtonLayout
    ["Prev, Next", "Next, Prev"],
  SettingInfo.Toggle "Long-press Chapter Skip" .longPressChapterSkip,
  SettingInfo.Enum "Short Power Button Click" .shortPwrBtn ["Ignore", "Sleep", "Page Turn"]]

/-- `constexpr int systemSettingsCount = 5;` -/
def systemSettingsCount : Int := 5

/-- The `systemSettings` table. -/
def systemSettings : List SettingInfo := [
  SettingInfo.Enum "Time to Sleep" .sleepTimeout
    ["1 min", "5 min", "10 min", "15 min", "30 min"],
  SettingInfo.Action "KOReader Sync",
  SettingInfo.Action "OPDS Browser",
  SettingInfo.Action "Clear Cache",
  SettingInfo.Action "Check for updates"]

/-- The action names `toggleCurrentSetting` dispatches on (each launches a
dedicated sub-activity). -/
def knownActions : List String :=
  ["Remap Front Buttons", "KOReader Sync", "OPDS Browser", "Clear Cache",
   "Check for updates"]

/-- The mutable state of `SettingsActivity` used by the navigation and
mutation logic, plus the `SETTINGS` store it mutates. -/
structure ActivityState where
  selectedCategoryIndex : Int
  selectedSettingIndex : Int
  settingsList : List SettingInfo
  settingsCount : Int
  updateRequired : Bool
  settings : CrossPointSettings

/-- Observable side effects of one call into the logic: number of
`SETTINGS.saveToFile()` calls, the sub-activity launch request (identified
by the action descriptor's name), and whether `onGoHome()` was called. -/
structure Effects where
  saves : Nat
  launched : Option String
  wentHome : Bool
deriving DecidableEq, Repr

/-- The input events consumed in one `loop` cycle from `mappedInput`. -/
structure InputEvents where
  confirmPressed : Bool
  backPressed : Bool
  upReleased : Bool
  downReleased : Bool
  leftReleased : Bool
  rightReleased : Bool
  heldTimeMs : Int
deriving DecidableEq, Repr

/-- `SettingsActivity::onEnter()`: reset the selection to the first
category, bind the Display table, and require an initial redraw. -/
def onEnter (st : CrossPointSettings) : ActivityState :=
  { selectedCategoryIndex := 0
    selectedSettingIndex := 0
    settingsList := displaySettings
    settingsCount := displaySettingsCount
    updateRequired := true
    settings := st }

/-- `SettingsActivity::toggleCurrentSetting()`. -/
def toggleCurrentSetting (s : ActivityState) : ActivityState × Effects :=
  let selectedSetting := s.selectedSettingIndex - 1
  if selectedSetting < 0 ∨ selectedSetting ≥ s.settingsCount then
    (s, ⟨0, none, false⟩)
  else
    match s.settingsList.get? selectedSetting.toNat with
    -- unreachable when settingsCount ≤ settingsList.length (out-of-bounds
    -- access would be undefined behaviour in the C++ source)
    | none => (s, ⟨0, none, false⟩)
    | some setting =>
      match setting.type, setting.valuePtr with
      | .TOGGLE, some (.toBool f) =>
        let currentValue := s.settings.boolField f
        ({ s with settings := s.settings.setBool f (!currentValue) },
         ⟨1, none, false⟩)
      | .ENUM, some (.toEnum f) =>
        let currentValue := s.settings.enumField f
        -- `(currentValue + 1) % static_cast<uint8_t>(setting.enumValues.size())`
        ({ s with settings :=
            s.settings.setEnum f ((currentValue + 1) % (setting.enumValues.length % 256)) },
         ⟨1, none, false⟩)
      | .VALUE, some (.toValue f) =>
        let currentValue := s.settings.intField f
        if currentValue + setting.valueRange.step > setting.valueRange.max then
          ({ s with settings := s.settings.setInt f setting.valueRange.min },
           ⟨1, none, false⟩)
        else
          ({ s with settings := s.settings.setInt f (currentValue + setting.valueRange.step) },
           ⟨1, none, false⟩)
      | .ACTION, _ =>
        -- each recognised name launches its sub-activity; in every case the
        -- trailing `SETTINGS.saveToFile()` still runs
        if setting.name ∈ knownActions then
          (s, ⟨1, some setting.name, false⟩)
        else
          (s, ⟨1, none, false⟩)
      | _, _ => (s, ⟨0, none, false⟩)

/-- The `selectedSettingIndex` reset and list/count rebinding performed at
the end of `loop` when `hasChangedCategory` is set. -/
def rebindCategory (s : ActivityState) : ActivityState :=
  let s := { s with selectedSettingIndex :=
               if s.selectedSettingIndex = 0 then 0 else 1 }
  if s.selectedCategoryIndex = 0 then
    { s with settingsList := displaySettings, settingsCount := displaySettingsCount }
  else if s.selectedCategoryIndex = 1 then
    { s with settingsList := readerSettings, settingsCount := readerSettingsCount }
  else if s.selectedCategoryIndex = 2 then
    { s with settingsList := controlsSettings, settingsCount := controlsSettingsCount }
  else if s.selectedCategoryIndex = 3 then
    { s with settingsList := systemSettings, settingsCount := systemSettingsCount }
  else s

/-- The navigation section of `loop` (lines 136-179): the held-gesture and
directional arms followed by the conditional category rebind. -/
def navPhase (inp : InputEvents) (hasChangedCategory : Bool)
    (s : ActivityState) : ActivityState :=
  let changeTab := inp.heldTimeMs > changeTabsMs
  let r :=
    if inp.upReleased ∧ changeTab then
      ({ s with
          selectedCategoryIndex :=
           (if s.selectedCategoryIndex > 0 then s.selectedCategoryIndex - 1
            else categoryCount - 1)
          updateRequired := true }, true)
    else if inp.downReleased ∧ changeTab then
      ({ s with
          selectedCategoryIndex :=
           (if s.selectedCategoryIndex < categoryCount - 1 then s.selectedCategoryIndex + 1
            else 0)
          updateRequired := true }, true)
    else if inp.upReleased ∨ inp.leftReleased then
      ({ s with
          selectedSettingIndex :=
           (if s.selectedSettingIndex > 0 then s.selectedSettingIndex - 1
            else s.settingsCount)
          updateRequired := true }, hasChangedCategory)
    else if inp.rightReleased ∨ inp.downReleased then
      ({ s with
          selectedSettingIndex :=
           (if s.selectedSettingIndex < s.settingsCount then s.selectedSettingIndex + 1
            else 0)
          updateRequired := true }, hasChangedCategory)
    else (s, hasChangedCategory)
  if r.2 then rebindCategory r.1 else r.1

/-- `SettingsActivity::loop()` for one input cycle with no sub-activity
active.  Mirrors the C++ control flow: the confirm-on-tab-row branch does
not return early (it must reach the rebind block), while confirm-on-item
and back return immediately. -/
def loop (inp : InputEvents) (s : ActivityState) : ActivityState × Effects :=
  if inp.confirmPressed ∧ s.selectedSettingIndex = 0 then
    let s := { s with
                selectedCategoryIndex :=
                 (if s.selectedCategoryIndex < categoryCount - 1 then
                    s.selectedCategoryIndex + 1
                  else 0)
                updateRequired := true }
    if inp.backPressed then (s, ⟨1, none, true⟩)
    else (navPhase inp true s, ⟨0, none, false⟩)
  else if inp.confirmPressed then
    let r := toggleCurrentSetting s
    ({ r.1 with updateRequired := true }, r.2)
  else if inp.backPressed then (s, ⟨1, none, true⟩)
  else (navPhase inp false s, ⟨0, none, false⟩)

/-- The descriptor table the `switch` in `loop` binds for a given category
index (indices outside 0..3 keep the Display table; the `switch` itself
has no default and is only reached with indices 0..3). -/
def tableListFor (i : Int) : List SettingInfo :=
  if i = 0 then displaySettings
  else if i = 1 then readerSettings
  else if i = 2 then controlsSettings
  else systemSettings

/-- The descriptor count the `switch` in `loop` binds for a given category
index. -/
def tableCountFor (i : Int) : Int :=
  if i = 0 then displaySettingsCount
  else if i = 1 then readerSettingsCount
  else if i = 2 then controlsSettingsCount
  else systemSettingsCount

/-- The navigation-state invariant: a valid category index, the descriptor
list/count bound to exactly that category's table, and a setting index on
the ring `[0, count]`. -/
def NavInvariant (s : ActivityState) : Prop :=
  0 ≤ s.selectedCategoryIndex ∧ s.selectedCategoryIndex < categoryCount ∧
  s.settingsList = tableListFor s.selectedCategoryIndex ∧
  s.settingsCount = tableCountFor s.selectedCategoryIndex ∧
  0 ≤ s.selectedSettingIndex ∧ s.selectedSettingIndex ≤ s.settingsCount

/-- Modelled from the spec: the transition relation as the specification
describes it — "only one transition fires per input cycle (first matching
rule wins: confirm > back > category-change-gesture > directional)", with
each rule's effect taken from the spec's transition list.  It is compared
against `loop`, which is translated from the source. -/
def specStep (inp : InputEvents) (s : ActivityState) : ActivityState × Effects :=
  if inp.confirmPressed ∧ s.selectedSettingIndex = 0 then
    (rebindCategory
      { s with
          selectedCategoryIndex :=
           (if s.selectedCategoryIndex < categoryCount - 1 then
              s.selectedCategoryIndex + 1
            else 0)
          updateRequired := true }, ⟨0, none, false⟩)
  else if inp.confirmPressed then
    let r := toggleCurrentSetting s
    ({ r.1 with updateRequired := true }, r.2)
  else if inp.backPressed then (s, ⟨1, none, true⟩)
  else if inp.upReleased ∧ inp.heldTimeMs > changeTabsMs then
    (rebindCategory
      { s with
          selectedCategoryIndex :=
           (if s.selectedCategoryIndex > 0 then s.selectedCategoryIndex - 1
            else categoryCount - 1)
          updateRequired := true }, ⟨0, none, false⟩)
  else if inp.downReleased ∧ inp.heldTimeMs > changeTabsMs then
    (rebindCategory
      { s with
          selectedCategoryIndex :=
           (if s.selectedCategoryIndex < categoryCount - 1 then
              s.selectedCategoryIndex + 1
            else 0)
          updateRequired := true }, ⟨0, none, false⟩)
  else if inp.upReleased ∨ inp.leftReleased then
    ({ s with
        selectedSettingIndex :=
         (if s.selectedSettingIndex > 0 then s.selectedSettingIndex - 1
          else s.settingsCount)
        updateRequired := true }, ⟨0, none, false⟩)
  else if inp.rightReleased ∨ inp.downReleased then
    ({ s with
        selectedSettingIndex :=
         (if s.selectedSettingIndex < s.settingsCount then s.selectedSettingIndex + 1
          else 0)
        updateRequired := true }, ⟨0, none, false⟩)
  else (s, ⟨0, none, false⟩)

/-- A directional button, for stating properties of plain navigation. -/
inductive DirKey where
  | up
  | down
  | left
  | right
deriving DecidableEq, Repr

/-- The input cycle in which exactly the given directional button is
released (no confirm, no back) with the given held duration. -/
def dirInput : DirKey → Int → InputEvents
  | .up, t => ⟨false, false, true, false, false, false, t⟩
  | .down, t => ⟨false, false, false, true, false, false, t⟩
  | .left, t => ⟨false, false, false, false, true, false, t⟩
  | .right, t => ⟨false, false, false, false, false, true, t⟩

/-- A directional event that does not qualify as the held category-change
gesture: Left/Right never qualify; Up/Down only when held at most
`changeTabsMs`. -/
def nonGesture : DirKey × Int → Prop
  | (.up, t) => t ≤ changeTabsMs
  | (.down, t) => t ≤ changeTabsMs
  | (.left, _) => True
  | (.right, _) => True

/-- Run a sequence of single-button directional input cycles through
`loop`. -/
def runDir (evs : List (DirKey × Int)) (s : ActivityState) : ActivityState :=
  evs.foldl (fun s e => (loop (dirInput e.1 e.2) s).1) s

/-- One confirm applied to the activity state (the state component of
`toggleCurrentSetting`), used for iterated-confirmation properties. -/
def confirmStep (s : ActivityState) : ActivityState :=
  (toggleCurrentSetting s).1

/-- The bound-value advance of the `VALUE` branch of
`toggleCurrentSetting`, before the `int8_t` store truncation. -/
def valueAdvance (r : ValueRange) (v : Int) : Int :=
  if v + r.step > r.max then r.min else v + r.step

/-- `toggleCurrentSetting` with the focus guard failing is the identity
with no effects. -/
theorem toggleCurrentSetting_oob (s : ActivityState)
    (h : s.selectedSettingIndex - 1 < 0 ∨ s.selectedSettingIndex - 1 ≥ s.settingsCount) :
    toggleCurrentSetting s = (s, ⟨0, none, false⟩) := by
  unfold toggleCurrentSetting
  exact if_pos h

/-- `toggleCurrentSetting` on an in-bounds Toggle descriptor bound to `f`:
negate the boolean field and issue one save. -/
theorem toggleCurrentSetting_toggle (s : ActivityState) (d : SettingInfo) (f : BoolField)
    (h1 : 1 ≤ s.selectedSettingIndex) (h2 : s.selectedSettingIndex ≤ s.settingsCount)
    (hd : s.settingsList.get? (s.selectedSettingIndex - 1).toNat = some d)
    (ht : d.type = .TOGGLE) (hp : d.valuePtr = some (.toBool f)) :
    toggleCurrentSetting s =
      ({ s with settings := s.settings.setBool f (!(s.settings.boolField f)) },
       ⟨1, none, false⟩) := by
  obtain ⟨name, ty, vp, ev, vr⟩ := d
  simp only at ht hp
  subst ht hp
  unfold toggleCurrentSetting
  rw [if_neg (by omega), hd]

/-- `toggleCurrentSetting` on an in-bounds Enum descriptor bound to `f`:
advance the field by one modulo the truncated label count and issue one
save. -/
theorem toggleCurrentSetting_enum (s : ActivityState) (d : SettingInfo) (f : EnumField)
    (h1 : 1 ≤ s.selectedSettingIndex) (h2 : s.selectedSettingIndex ≤ s.settingsCount)
    (hd : s.settingsList.get? (s.selectedSettingIndex - 1).toNat = some d)
    (ht : d.type = .ENUM) (hp : d.valuePtr = some (.toEnum f)) :
    toggleCurrentSetting s =
      ({ s with settings := s.settings.setEnum f ((s.settings.enumField f + 1) % (d.enumValues.length % 256)) },
       ⟨1, none, false⟩) := by
  obtain ⟨name, ty, vp, ev, vr⟩ := d
  simp only at ht hp ⊢
  subst ht hp
  unfold toggleCurrentSetting
  rw [if_neg (by omega), hd]

/-- `toggleCurrentSetting` on an in-bounds Value descriptor bound to `f`:
advance the field by `step` with a wrap to `min` past `max`, truncated to
`int8_t`, and issue one save. -/
theorem toggleCurrentSetting_value (s : ActivityState) (d : SettingInfo) (f : ValueField)
    (h1 : 1 ≤ s.selectedSettingIndex) (h2 : s.selectedSettingIndex ≤ s.settingsCount)
    (hd : s.settingsList.get? (s.selectedSettingIndex - 1).toNat = some d)
    (ht : d.type = .VALUE) (hp : d.valuePtr = some (.toValue f)) :
    toggleCurrentSetting s =
      ({ s with settings := s.settings.setInt f (valueAdvance d.valueRange (s.settings.intField f)) },
       ⟨1, none, false⟩) := by
  obtain ⟨name, ty, vp, ev, vr⟩ := d
  simp only at ht hp ⊢
  subst ht hp
  unfold toggleCurrentSetting valueAdvance
  rw [if_neg (by omega), hd]
  dsimp only
  split <;> rfl

/-- `toggleCurrentSetting` on an in-bounds Action descriptor: no state
change; a launch request exactly when the name is recognised; one save in
either case. -/
theorem toggleCurrentSetting_action (s : ActivityState) (d : SettingInfo)
    (h1 : 1 ≤ s.selectedSettingIndex) (h2 : s.selectedSettingIndex ≤ s.settingsCount)
    (hd : s.settingsList.get? (s.selectedSettingIndex - 1).toNat = some d)
    (ht : d.type = .ACTION) :
    toggleCurrentSetting s =
      (s, ⟨1, if d.name ∈ knownActions then some d.name else none, false⟩) := by
  obtain ⟨name, ty, vp, ev, vr⟩ := d
  simp only at ht ⊢
  subst ht
  unfold toggleCurrentSetting
  rw [if_neg (by omega), hd]
  dsimp only
  split <;> rfl

/-- `toggleCurrentSetting` on an in-bounds Toggle/Enum/Value descriptor
with no bound field: the identity with no effects. -/
theorem toggleCurrentSetting_unbound (s : ActivityState) (d : SettingInfo)
    (h1 : 1 ≤ s.selectedSettingIndex) (h2 : s.selectedSettingIndex ≤ s.settingsCount)
    (hd : s.settingsList.get? (s.selectedSettingIndex - 1).toNat = some d)
    (ht : d.type ≠ .ACTION) (hp : d.valuePtr = none) :
    toggleCurrentSetting s = (s, ⟨0, none, false⟩) := by
  obtain ⟨name, ty, vp, ev, vr⟩ := d
  simp only at ht hp
  subst hp
  unfold toggleCurrentSetting
  rw [if_neg (by omega), hd]
  dsimp only
  cases ty
  · rfl
  · rfl
  · rfl
  · exact absurd rfl ht

/-- `toggleCurrentSetting` never changes the navigation fields. -/
theorem toggleCurrentSetting_nav (s : ActivityState) :
    (toggleCurrentSetting s).1.selectedCategoryIndex = s.selectedCategoryIndex ∧
    (toggleCurrentSetting s).1.selectedSettingIndex = s.selectedSettingIndex ∧
    (toggleCurrentSetting s).1.settingsList = s.settingsList ∧
    (toggleCurrentSetting s).1.settingsCount = s.settingsCount ∧
    (toggleCurrentSetting s).1.updateRequired = s.updateRequired := by
  refine ⟨?_, ?_, ?_, ?_, ?_⟩
  all_goals unfold toggleCurrentSetting
  all_goals dsimp only
  all_goals repeat' split
  all_goals rfl

/-- `rebindCategory` establishes the navigation invariant whenever the
category index is valid. -/
theorem rebindCategory_invariant (s : ActivityState)
    (h0 : 0 ≤ s.selectedCategoryIndex) (h1 : s.selectedCategoryIndex < categoryCount) :
    NavInvariant (rebindCategory s) := by
  obtain ⟨c, i, l, n, u, st⟩ := s
  dsimp only at h0 h1
  unfold categoryCount at h1
  unfold NavInvariant rebindCategory
  dsimp only
  interval_cases c <;>
    norm_num [tableListFor, tableCountFor, displaySettingsCount, readerSettingsCount,
      controlsSettingsCount, systemSettingsCount, categoryCount] <;>
    split_ifs <;> omega

/-- Unfolding of `navPhase` into its five mutually exclusive outcomes. -/
theorem navPhase_eq (inp : InputEvents) (hcc : Bool) (s : ActivityState) :
    navPhase inp hcc s =
      (if inp.upReleased ∧ inp.heldTimeMs > changeTabsMs then
        rebindCategory { s with selectedCategoryIndex := (if s.selectedCategoryIndex > 0 then s.selectedCategoryIndex - 1 else categoryCount - 1), updateRequired := true }
      else if inp.downReleased ∧ inp.heldTimeMs > changeTabsMs then
        rebindCategory { s with selectedCategoryIndex := (if s.selectedCategoryIndex < categoryCount - 1 then s.selectedCategoryIndex + 1 else 0), updateRequired := true }
      else if inp.upReleased ∨ inp.leftReleased then
        (if hcc then rebindCategory { s with selectedSettingIndex := (if s.selectedSettingIndex > 0 then s.selectedSettingIndex - 1 else s.settingsCount), updateRequired := true }
         else { s with selectedSettingIndex := (if s.selectedSettingIndex > 0 then s.selectedSettingIndex - 1 else s.settingsCount), updateRequired := true })
      else if inp.rightReleased ∨ inp.downReleased then
        (if hcc then rebindCategory { s with selectedSettingIndex := (if s.selectedSettingIndex < s.settingsCount then s.selectedSettingIndex + 1 else 0), updateRequired := true }
         else { s with selectedSettingIndex := (if s.selectedSettingIndex < s.settingsCount then s.selectedSettingIndex + 1 else 0), updateRequired := true })
      else (if hcc then rebindCategory s else s)) := by
  unfold navPhase
  dsimp only
  split_ifs <;> simp_all

/-- `navPhase` with `hasChangedCategory` set always ends in
`rebindCategory` and establishes the invariant from a valid category
index. -/
theorem navPhase_true_invariant (inp : InputEvents) (s : ActivityState)
    (h0 : 0 ≤ s.selectedCategoryIndex) (h1 : s.selectedCategoryIndex < categoryCount) :
    NavInvariant (navPhase inp true s) := by
  have h4 : categoryCount = 4 := rfl
  rw [navPhase_eq]
  split_ifs <;>
    solve
      | (apply rebindCategory_invariant <;> dsimp only <;> omega)
      | (exfalso; simp_all)

/-- `navPhase` with `hasChangedCategory` clear preserves the navigation
invariant. -/
theorem navPhase_false_invariant (inp : InputEvents) (s : ActivityState)
    (h : NavInvariant s) : NavInvariant (navPhase inp false s) := by
  obtain ⟨hc0, hc1, hl, hn, hi0, hi1⟩ := h
  have h4 : categoryCount = 4 := rfl
  rw [navPhase_eq]
  split_ifs <;>
    solve
      | (exfalso; simp_all)
      | (apply rebindCategory_invariant <;> dsimp only <;> omega)
      | exact ⟨hc0, hc1, hl, hn, by dsimp only; omega, by dsimp only; omega⟩
      | exact ⟨hc0, hc1, hl, hn, hi0, hi1⟩

/-- Unfolding of `loop` into its four control paths. -/
theorem loop_eq (inp : InputEvents) (s : ActivityState) :
    loop inp s =
      (if inp.confirmPressed ∧ s.selectedSettingIndex = 0 then
        (if inp.backPressed then
          ({ s with selectedCategoryIndex := (if s.selectedCategoryIndex < categoryCount - 1 then s.selectedCategoryIndex + 1 else 0), updateRequired := true }, ⟨1, none, true⟩)
         else
          (navPhase inp true { s with selectedCategoryIndex := (if s.selectedCategoryIndex < categoryCount - 1 then s.selectedCategoryIndex + 1 else 0), updateRequired := true }, ⟨0, none, false⟩))
      else if inp.confirmPressed then
        ({ (toggleCurrentSetting s).1 with updateRequired := true }, (toggleCurrentSetting s).2)
      else if inp.backPressed then (s, ⟨1, none, true⟩)
      else (navPhase inp false s, ⟨0, none, false⟩)) := by
  unfold loop
  rfl

/-- C4: the navigation invariant — a category index in 0..3, the bound
descriptor list/count equal to that category's fixed table, and a setting
index in `[0, count]` — holds on screen entry and is preserved by every
input cycle that keeps the screen active (does not call `onGoHome`). -/
theorem nav_invariant_preserved (st : CrossPointSettings) (s : ActivityState)
    (inp : InputEvents) :
    NavInvariant (onEnter st) ∧
    (NavInvariant s → (loop inp s).2.wentHome = false → NavInvariant (loop inp s).1) := by
  have h4 : categoryCount = 4 := rfl
  constructor
  · unfold NavInvariant onEnter
    norm_num [categoryCount, tableListFor, tableCountFor, displaySettingsCount]
  · intro hs hhome
    obtain ⟨hc0, hc1, hl, hn, hi0, hi1⟩ := hs
    rw [loop_eq] at hhome ⊢
    by_cases hA : inp.confirmPressed = true ∧ s.selectedSettingIndex = 0
    · rw [if_pos hA] at hhome ⊢
      by_cases hB : inp.backPressed = true
      · rw [if_pos hB] at hhome
        exact absurd hhome (by simp)
      · rw [if_neg hB]
        apply navPhase_true_invariant <;> dsimp only <;> split_ifs <;> omega
    · rw [if_neg hA] at hhome ⊢
      by_cases hC : inp.confirmPressed = true
      · rw [if_pos hC]
        obtain ⟨e1, e2, e3, e4, e5⟩ := toggleCurrentSetting_nav s
        exact ⟨by dsimp only; rw [e1]; exact hc0,
          by dsimp only; rw [e1]; exact hc1,
          by dsimp only; rw [e3, e1]; exact hl,
          by dsimp only; rw [e4, e1]; exact hn,
          by dsimp only; rw [e2]; exact hi0,
          by dsimp only; rw [e2, e4]; exact hi1⟩
      · rw [if_neg hC] at hhome ⊢
        by_cases hD : inp.backPressed = true
        · rw [if_pos hD] at hhome
          exact absurd hhome (by simp)
        · rw [if_neg hD]
          exact navPhase_false_invariant inp s ⟨hc0, hc1, hl, hn, hi0, hi1⟩

/-- Witness for `nav_invariant_preserved`: entry state and one Down-release
cycle from it. -/
theorem nav_invariant_preserved_witness :
    NavInvariant
      (loop ⟨false, false, false, true, false, false, 0⟩
        (onEnter ⟨fun _ => false, fun _ => 0, fun _ => 10⟩)).1 := by
  refine (nav_invariant_preserved ⟨fun _ => false, fun _ => 0, fun _ => 10⟩
    (onEnter ⟨fun _ => false, fun _ => 0, fun _ => 10⟩)
    ⟨false, false, false, true, false, false, 0⟩).2 ?_ ?_
  · exact (nav_invariant_preserved ⟨fun _ => false, fun _ => 0, fun _ => 10⟩
      (onEnter ⟨fun _ => false, fun _ => 0, fun _ => 10⟩)
      ⟨false, false, false, true, false, false, 0⟩).1
  · rfl

/-- A single non-gesture directional cycle only moves the setting index:
backward (with wrap to `settingsCount`) for Up/Left, forward (with wrap to
0) for Down/Right. -/
theorem dirStep_eq (s : ActivityState) (k : DirKey) (t : Int)
    (hng : nonGesture (k, t)) :
    (loop (dirInput k t) s).1 =
      (if k = .up ∨ k = .left then
        { s with selectedSettingIndex := (if s.selectedSettingIndex > 0 then s.selectedSettingIndex - 1 else s.settingsCount), updateRequired := true }
      else
        { s with selectedSettingIndex := (if s.selectedSettingIndex < s.settingsCount then s.selectedSettingIndex + 1 else 0), updateRequired := true }) := by
  rcases k with _ | _ | _ | _
  · replace hng : t ≤ changeTabsMs := hng
    have hnt : ¬ changeTabsMs < t := not_lt.mpr hng
    rw [loop_eq]
    simp only [dirInput]
    norm_num
    rw [navPhase_eq]
    simp [hnt]
  · replace hng : t ≤ changeTabsMs := hng
    have hnt : ¬ changeTabsMs < t := not_lt.mpr hng
    rw [loop_eq]
    simp only [dirInput]
    norm_num
    rw [navPhase_eq]
    simp [hnt]
  · rw [loop_eq]
    simp only [dirInput]
    norm_num
    rw [navPhase_eq]
    simp
  · rw [loop_eq]
    simp only [dirInput]
    norm_num
    rw [navPhase_eq]
    simp

/-- Backward step on the ring `[0, n]` as a modulus. -/
theorem ring_dec (i n : Int) (h0 : 0 ≤ i) (h1 : i ≤ n) :
    (if i > 0 then i - 1 else n) = (i + n) % (n + 1) := by
  split_ifs with h
  · have he : i + n = (i - 1) + (n + 1) * 1 := by ring
    rw [he, Int.add_mul_emod_self_left, Int.emod_eq_of_lt (by omega) (by omega)]
  · have he : i = 0 := by omega
    subst he
    rw [Int.emod_eq_of_lt (by omega) (by omega)]
    omega

/-- Forward step on the ring `[0, n]` as a modulus. -/
theorem ring_inc (i n : Int) (h0 : 0 ≤ i) (h1 : i ≤ n) :
    (if i < n then i + 1 else 0) = (i + 1) % (n + 1) := by
  split_ifs with h
  · rw [Int.emod_eq_of_lt (by omega) (by omega)]
  · have he : i = n := by omega
    subst he
    rw [Int.emod_self]

/-- C3: under any sequence of single-button Up/Down/Left/Right releases
that do not qualify as the held category-change gesture, the setting index
stays in `[0, count]` with list and count unchanged; each Up/Left step is a
decrement on the ring of size `count + 1` (wrapping 0 to `count`), each
Down/Right step an increment (wrapping `count` to 0); and with `count = 0`
the focus never leaves the tab row. -/
theorem directional_navigation_ring (s : ActivityState)
    (h0 : 0 ≤ s.selectedSettingIndex) (h1 : s.selectedSettingIndex ≤ s.settingsCount) :
    (∀ evs : List (DirKey × Int), (∀ e ∈ evs, nonGesture e) →
      0 ≤ (runDir evs s).selectedSettingIndex ∧
      (runDir evs s).selectedSettingIndex ≤ (runDir evs s).settingsCount ∧
      (runDir evs s).settingsCount = s.settingsCount ∧
      (runDir evs s).settingsList = s.settingsList) ∧
    (∀ k t, nonGesture (k, t) →
      ((k = .up ∨ k = .left) →
        (loop (dirInput k t) s).1.selectedSettingIndex =
          (s.selectedSettingIndex + s.settingsCount) % (s.settingsCount + 1)) ∧
      ((k = .down ∨ k = .right) →
        (loop (dirInput k t) s).1.selectedSettingIndex =
          (s.selectedSettingIndex + 1) % (s.settingsCount + 1))) ∧
    (s.settingsCount = 0 → ∀ k t, nonGesture (k, t) →
      (loop (dirInput k t) s).1.selectedSettingIndex = 0) := by
  have hstep : ∀ (x : ActivityState) (k : DirKey) (t : Int), nonGesture (k, t) →
      0 ≤ x.selectedSettingIndex → x.selectedSettingIndex ≤ x.settingsCount →
      0 ≤ (loop (dirInput k t) x).1.selectedSettingIndex ∧
      (loop (dirInput k t) x).1.selectedSettingIndex ≤ (loop (dirInput k t) x).1.settingsCount ∧
      (loop (dirInput k t) x).1.settingsCount = x.settingsCount ∧
      (loop (dirInput k t) x).1.settingsList = x.settingsList := by
    intro x k t hng hh0 hh1
    rw [dirStep_eq x k t hng]
    split_ifs <;> refine ⟨?_, ?_, ?_, ?_⟩ <;> try dsimp only
    all_goals first | rfl | omega
  refine ⟨?_, ?_, ?_⟩
  · intro evs
    induction evs generalizing s with
    | nil => intro _; exact ⟨h0, h1, rfl, rfl⟩
    | cons e rest ih =>
      intro hall
      obtain ⟨k, t⟩ := e
      have he : nonGesture (k, t) := hall (k, t) (by simp)
      obtain ⟨p1, p2, p3, p4⟩ := hstep s k t he h0 h1
      have hrest := ih (loop (dirInput k t) s).1 p1 (by omega)
        (fun x hx => hall x (by simp [hx]))
      obtain ⟨q1, q2, q3, q4⟩ := hrest
      have hr : runDir ((k, t) :: rest) s = runDir rest (loop (dirInput k t) s).1 := by
        simp [runDir]
      rw [hr]
      exact ⟨q1, q2, by rw [q3]; omega, by rw [q4, p4]⟩
  · intro k t hng
    constructor
    · intro hk
      rw [dirStep_eq s k t hng, if_pos hk]
      dsimp only
      exact ring_dec _ _ h0 h1
    · intro hk
      have hk2 : ¬(k = .up ∨ k = .left) := by
        rcases hk with h | h <;> subst h <;> simp
      rw [dirStep_eq s k t hng, if_neg hk2]
      dsimp only
      exact ring_inc _ _ h0 h1
  · intro hz k t hng
    rw [dirStep_eq s k t hng]
    split_ifs <;> dsimp only <;> omega

/-- Witness for `directional_navigation_ring`: one Up release on the entry
state wraps the tab row to index `count`. -/
theorem directional_navigation_ring_witness :
    (loop (dirInput .up 0) (onEnter ⟨fun _ => false, fun _ => 0, fun _ => 10⟩)).1.selectedSettingIndex =
      ((onEnter ⟨fun _ => false, fun _ => 0, fun _ => 10⟩).selectedSettingIndex +
        (onEnter ⟨fun _ => false, fun _ => 0, fun _ => 10⟩).settingsCount) %
        ((onEnter ⟨fun _ => false, fun _ => 0, fun _ => 10⟩).settingsCount + 1) :=
  ((directional_navigation_ring _ (by norm_num [onEnter])
      (by norm_num [onEnter, displaySettingsCount])).2.1 .up 0
    (by norm_num [nonGesture, changeTabsMs])).1 (Or.inl rfl)

/-- `rebindCategory` on a valid category index: reset the setting index to
the tab row or first item, and bind the selected category's table. -/
theorem rebindCategory_eq (s : ActivityState)
    (h0 : 0 ≤ s.selectedCategoryIndex) (h1 : s.selectedCategoryIndex < 4) :
    rebindCategory s =
      { s with
          selectedSettingIndex := (if s.selectedSettingIndex = 0 then 0 else 1)
          settingsList := tableListFor s.selectedCategoryIndex
          settingsCount := tableCountFor s.selectedCategoryIndex } := by
  obtain ⟨c, i, l, n, u, st⟩ := s
  dsimp only at h0 h1 ⊢
  unfold rebindCategory tableListFor tableCountFor
  dsimp only
  interval_cases c <;> norm_num

/-- The backward category move of the held-Up gesture as a modulus. -/
theorem cat_dec_eq (c : Int) (h0 : 0 ≤ c) (h1 : c < 4) :
    (if c > 0 then c - 1 else categoryCount - 1) = (c + 3) % 4 := by
  unfold categoryCount
  interval_cases c <;> norm_num

/-- The forward category move (confirm on tab row, held-Down gesture) as a
modulus. -/
theorem cat_inc_eq (c : Int) (h0 : 0 ≤ c) (h1 : c < 4) :
    (if c < categoryCount - 1 then c + 1 else 0) = (c + 1) % 4 := by
  unfold categoryCount
  interval_cases c <;> norm_num

/-- C5: an Up (resp. Down) release held strictly longer than 700 ms in a
cycle without confirm or back moves the category backward (resp. forward)
circularly, rebinds the list and count to the new category's table, and
lands the setting index on 0 if the tab row was focused and on 1
otherwise; at or below the 700 ms threshold the category does not change. -/
theorem held_updown_changes_category (s : ActivityState) (inp : InputEvents)
    (hc0 : 0 ≤ s.selectedCategoryIndex) (hc1 : s.selectedCategoryIndex < categoryCount)
    (hnc : inp.confirmPressed = false) (hnb : inp.backPressed = false) :
    (inp.upReleased = true → inp.heldTimeMs > changeTabsMs →
      (loop inp s).1.selectedCategoryIndex = (s.selectedCategoryIndex + 3) % 4 ∧
      (loop inp s).1.settingsList = tableListFor ((s.selectedCategoryIndex + 3) % 4) ∧
      (loop inp s).1.settingsCount = tableCountFor ((s.selectedCategoryIndex + 3) % 4) ∧
      (loop inp s).1.selectedSettingIndex = (if s.selectedSettingIndex = 0 then 0 else 1)) ∧
    (inp.downReleased = true → inp.upReleased = false → inp.heldTimeMs > changeTabsMs →
      (loop inp s).1.selectedCategoryIndex = (s.selectedCategoryIndex + 1) % 4 ∧
      (loop inp s).1.settingsList = tableListFor ((s.selectedCategoryIndex + 1) % 4) ∧
      (loop inp s).1.settingsCount = tableCountFor ((s.selectedCategoryIndex + 1) % 4) ∧
      (loop inp s).1.selectedSettingIndex = (if s.selectedSettingIndex = 0 then 0 else 1)) ∧
    ((inp.upReleased = true ∨ inp.downReleased = true) → inp.heldTimeMs ≤ changeTabsMs →
      (loop inp s).1.selectedCategoryIndex = s.selectedCategoryIndex) := by
  have h4 : categoryCount = 4 := rfl
  rw [loop_eq]
  rw [if_neg (by simp [hnc]), if_neg (by simp [hnc]), if_neg (by simp [hnb])]
  dsimp only
  rw [navPhase_eq]
  refine ⟨?_, ?_, ?_⟩
  · intro hu hh
    rw [if_pos (⟨hu, hh⟩ : _ ∧ _)]
    rw [rebindCategory_eq _ (by dsimp only; split_ifs <;> omega)
      (by dsimp only; split_ifs <;> omega)]
    have hc := cat_dec_eq s.selectedCategoryIndex hc0 (by omega)
    refine ⟨?_, ?_, ?_, ?_⟩ <;> dsimp only
    · exact hc
    · rw [hc]
    · rw [hc]
  · intro hdn hund hh
    rw [if_neg (by simp [hund]), if_pos (⟨hdn, hh⟩ : _ ∧ _)]
    rw [rebindCategory_eq _ (by dsimp only; split_ifs <;> omega)
      (by dsimp only; split_ifs <;> omega)]
    have hc := cat_inc_eq s.selectedCategoryIndex hc0 (by omega)
    refine ⟨?_, ?_, ?_, ?_⟩ <;> dsimp only
    · exact hc
    · rw [hc]
    · rw [hc]
  · intro _ hle
    have hnt : ¬ changeTabsMs < inp.heldTimeMs := not_lt.mpr hle
    rw [if_neg (by tauto), if_neg (by tauto)]
    split_ifs <;> first | rfl | simp_all

/-- Witness for `held_updown_changes_category`: a held Down release from
category System (index 3) with an item focused. -/
theorem held_updown_changes_category_witness :
    (loop ⟨false, false, false, true, false, false, 701⟩
      ⟨3, 2, systemSettings, 5, false, ⟨fun _ => false, fun _ => 0, fun _ => 10⟩⟩).1.selectedCategoryIndex = (3 + 1) % 4 ∧
    (loop ⟨false, false, false, true, false, false, 701⟩
      ⟨3, 2, systemSettings, 5, false, ⟨fun _ => false, fun _ => 0, fun _ => 10⟩⟩).1.settingsList = tableListFor ((3 + 1) % 4) ∧
    (loop ⟨false, false, false, true, false, false, 701⟩
      ⟨3, 2, systemSettings, 5, false, ⟨fun _ => false, fun _ => 0, fun _ => 10⟩⟩).1.settingsCount = tableCountFor ((3 + 1) % 4) ∧
    (loop ⟨false, false, false, true, false, false, 701⟩
      ⟨3, 2, systemSettings, 5, false, ⟨fun _ => false, fun _ => 0, fun _ => 10⟩⟩).1.selectedSettingIndex = (if (2 : Int) = 0 then 0 else 1) :=
  (held_updown_changes_category
      ⟨3, 2, systemSettings, 5, false, ⟨fun _ => false, fun _ => 0, fun _ => 10⟩⟩
      ⟨false, false, false, true, false, false, 701⟩
      (by norm_num) (by norm_num [categoryCount]) rfl rfl).2.1 rfl rfl
    (by norm_num [changeTabsMs])

/-- C1 counterexample: from the entry state (category Display, tab row
focused), a cycle with confirm pressed and a Down release together
advances the category but leaves the focus on item 1 — not on the tab row
as the claim states for every such cycle. -/
theorem confirm_on_tab_with_direction_leaves_item_focus :
    (loop ⟨true, false, false, true, false, false, 0⟩
      (onEnter ⟨fun _ => false, fun _ => 0, fun _ => 10⟩)).1.selectedCategoryIndex = 1 ∧
    (loop ⟨true, false, false, true, false, false, 0⟩
      (onEnter ⟨fun _ => false, fun _ => 0, fun _ => 10⟩)).1.selectedSettingIndex = 1 ∧
    ¬((loop ⟨true, false, false, true, false, false, 0⟩
      (onEnter ⟨fun _ => false, fun _ => 0, fun _ => 10⟩)).1.selectedSettingIndex = 0) := by
  refine ⟨?_, ?_, ?_⟩ <;> decide

/-- C1 (amended): in a cycle where confirm is pressed with the tab row
focused and no back press or directional release accompanies it, the
category advances circularly by one, the descriptor list and count rebind
to the new category's table, and the focus stays on the tab row. -/
theorem confirm_on_tab_row_advances_category (s : ActivityState) (inp : InputEvents)
    (hc0 : 0 ≤ s.selectedCategoryIndex) (hc1 : s.selectedCategoryIndex < categoryCount)
    (hcf : inp.confirmPressed = true) (hidx : s.selectedSettingIndex = 0)
    (hnb : inp.backPressed = false)
    (hnu : inp.upReleased = false) (hnd : inp.downReleased = false)
    (hnl : inp.leftReleased = false) (hnr : inp.rightReleased = false) :
    (loop inp s).1.selectedCategoryIndex = (s.selectedCategoryIndex + 1) % 4 ∧
    (loop inp s).1.settingsList = tableListFor ((s.selectedCategoryIndex + 1) % 4) ∧
    (loop inp s).1.settingsCount = tableCountFor ((s.selectedCategoryIndex + 1) % 4) ∧
    (loop inp s).1.selectedSettingIndex = 0 := by
  have h4 : categoryCount = 4 := rfl
  rw [loop_eq, if_pos (⟨hcf, hidx⟩ : _ ∧ _), if_neg (by simp [hnb])]
  dsimp only
  rw [navPhase_eq]
  rw [if_neg (by simp [hnu]), if_neg (by simp [hnd]), if_neg (by simp [hnu, hnl]),
      if_neg (by simp [hnr, hnd]), if_pos (by simp)]
  rw [rebindCategory_eq _ (by dsimp only; split_ifs <;> omega)
    (by dsimp only; split_ifs <;> omega)]
  have hc := cat_inc_eq s.selectedCategoryIndex hc0 (by omega)
  refine ⟨?_, ?_, ?_, ?_⟩ <;> dsimp only
  · exact hc
  · rw [hc]
  · rw [hc]
  · rw [if_pos hidx]

/-- Witness for `confirm_on_tab_row_advances_category`: from category
System (index 3) the confirm lands on Display with its 7 descriptors. -/
theorem confirm_on_tab_row_advances_category_witness :
    (loop ⟨true, false, false, false, false, false, 0⟩
      ⟨3, 0, systemSettings, 5, false, ⟨fun _ => false, fun _ => 0, fun _ => 10⟩⟩).1.selectedCategoryIndex = (3 + 1) % 4 ∧
    (loop ⟨true, false, false, false, false, false, 0⟩
      ⟨3, 0, systemSettings, 5, false, ⟨fun _ => false, fun _ => 0, fun _ => 10⟩⟩).1.settingsList = tableListFor ((3 + 1) % 4) ∧
    (loop ⟨true, false, false, false, false, false, 0⟩
      ⟨3, 0, systemSettings, 5, false, ⟨fun _ => false, fun _ => 0, fun _ => 10⟩⟩).1.settingsCount = tableCountFor ((3 + 1) % 4) ∧
    (loop ⟨true, false, false, false, false, false, 0⟩
      ⟨3, 0, systemSettings, 5, false, ⟨fun _ => false, fun _ => 0, fun _ => 10⟩⟩).1.selectedSettingIndex = 0 :=
  confirm_on_tab_row_advances_category
    ⟨3, 0, systemSettings, 5, false, ⟨fun _ => false, fun _ => 0, fun _ => 10⟩⟩
    ⟨true, false, false, false, false, false, 0⟩
    (by norm_num) (by norm_num [categoryCount]) rfl rfl rfl rfl rfl rfl rfl

/-- C2 counterexample: with confirm pressed on the tab row and a Down
release in the same cycle, the confirm rule fires (category advances) and
the directional rule also fires (index moves to 1), whereas the spec's
single-rule machine leaves the index on the tab row. -/
theorem loop_two_rules_fire_in_one_cycle :
    (loop ⟨true, false, false, true, false, false, 0⟩
      (onEnter ⟨fun _ => false, fun _ => 0, fun _ => 10⟩)).1.selectedCategoryIndex = 1 ∧
    (loop ⟨true, false, false, true, false, false, 0⟩
      (onEnter ⟨fun _ => false, fun _ => 0, fun _ => 10⟩)).1.selectedSettingIndex = 1 ∧
    (specStep ⟨true, false, false, true, false, false, 0⟩
      (onEnter ⟨fun _ => false, fun _ => 0, fun _ => 10⟩)).1.selectedCategoryIndex = 1 ∧
    (specStep ⟨true, false, false, true, false, false, 0⟩
      (onEnter ⟨fun _ => false, fun _ => 0, fun _ => 10⟩)).1.selectedSettingIndex = 0 := by
  refine ⟨?_, ?_, ?_, ?_⟩ <;> decide

/-- C2 (amended): the cycle behaves as the spec's first-match-wins machine
(confirm > back > held gesture > directional) in every cycle except those
where confirm is pressed with the tab row focused together with a back
press or a directional release; confirm on an item and back do return
early, and the four navigation arms are mutually exclusive. -/
theorem loop_eq_specStep_unless_confirm_tab_overlap (s : ActivityState) (inp : InputEvents)
    (h : inp.confirmPressed = true → s.selectedSettingIndex = 0 →
      inp.backPressed = false ∧ inp.upReleased = false ∧ inp.downReleased = false ∧
      inp.leftReleased = false ∧ inp.rightReleased = false) :
    loop inp s = specStep inp s := by
  rw [loop_eq]
  unfold specStep
  dsimp only
  by_cases hA : inp.confirmPressed = true ∧ s.selectedSettingIndex = 0
  · obtain ⟨hb, hu, hd, hl, hr⟩ := h hA.1 hA.2
    rw [if_pos hA, if_neg (by simp [hb])]
    rw [navPhase_eq]
    rw [if_neg (by simp [hu]), if_neg (by simp [hd]), if_neg (by simp [hu, hl]),
        if_neg (by simp [hr, hd]), if_pos (by simp)]
    rw [if_pos hA]
  · rw [if_neg hA]
    repeat rw [if_neg hA]
    by_cases hC : inp.confirmPressed = true
    · rw [if_pos hC]
      repeat rw [if_pos hC]
    · rw [if_neg hC]
      repeat rw [if_neg hC]
      by_cases hB : inp.backPressed = true
      · rw [if_pos hB]
        repeat rw [if_pos hB]
      · rw [if_neg hB]
        repeat rw [if_neg hB]
        rw [navPhase_eq]
        split_ifs <;> first | rfl | simp_all

/-- Witness for `loop_eq_specStep_unless_confirm_tab_overlap`: a plain
Right release cycle. -/
theorem loop_eq_specStep_unless_confirm_tab_overlap_witness :
    loop ⟨false, false, false, false, false, true, 0⟩
      (onEnter ⟨fun _ => false, fun _ => 0, fun _ => 10⟩) =
    specStep ⟨false, false, false, false, false, true, 0⟩
      (onEnter ⟨fun _ => false, fun _ => 0, fun _ => 10⟩) :=
  loop_eq_specStep_unless_confirm_tab_overlap
    (onEnter ⟨fun _ => false, fun _ => 0, fun _ => 10⟩)
    ⟨false, false, false, false, false, true, 0⟩
    (fun hc _ => by simp at hc)

/-- C8: confirming a focused Toggle descriptor replaces the bound boolean
by its negation, and two consecutive confirmations restore the original
value (involution). -/
theorem toggle_descriptor_confirm_involutive (s : ActivityState) (d : SettingInfo)
    (f : BoolField)
    (h1 : 1 ≤ s.selectedSettingIndex) (h2 : s.selectedSettingIndex ≤ s.settingsCount)
    (hd : s.settingsList.get? (s.selectedSettingIndex - 1).toNat = some d)
    (ht : d.type = .TOGGLE) (hp : d.valuePtr = some (.toBool f)) :
    (toggleCurrentSetting s).1.settings.boolField f = !(s.settings.boolField f) ∧
    (toggleCurrentSetting (toggleCurrentSetting s).1).1.settings.boolField f =
      s.settings.boolField f := by
  have e1 := toggleCurrentSetting_toggle s d f h1 h2 hd ht hp
  constructor
  · rw [e1]
    dsimp only
    simp [CrossPointSettings.setBool]
  · rw [e1]
    dsimp only
    rw [toggleCurrentSetting_toggle
      { s with settings := s.settings.setBool f (!(s.settings.boolField f)) } d f h1 h2 hd ht hp]
    dsimp only
    simp [CrossPointSettings.setBool]

/-- Witness for `toggle_descriptor_confirm_involutive`: the Hyphenation
toggle of the Reader category. -/
theorem toggle_descriptor_confirm_involutive_witness :
    (toggleCurrentSetting
      ⟨1, 6, readerSettings, 9, false, ⟨fun _ => false, fun _ => 0, fun _ => 10⟩⟩).1.settings.boolField .hyphenationEnabled =
      !((⟨fun _ => false, fun _ => 0, fun _ => 10⟩ : CrossPointSettings).boolField .hyphenationEnabled) ∧
    (toggleCurrentSetting (toggleCurrentSetting
      ⟨1, 6, readerSettings, 9, false, ⟨fun _ => false, fun _ => 0, fun _ => 10⟩⟩).1).1.settings.boolField .hyphenationEnabled =
      (⟨fun _ => false, fun _ => 0, fun _ => 10⟩ : CrossPointSettings).boolField .hyphenationEnabled :=
  toggle_descriptor_confirm_involutive
    ⟨1, 6, readerSettings, 9, false, ⟨fun _ => false, fun _ => 0, fun _ => 10⟩⟩
    (SettingInfo.Toggle "Hyphenation" .hyphenationEnabled) .hyphenationEnabled
    (by norm_num) (by norm_num) rfl rfl rfl

/-- C10: the three error cases of the mutation/dispatch component are
local no-ops: an out-of-bounds focus index performs no mutation and no
save; a Toggle/Enum/Value descriptor without a bound field performs no
mutation and no save; an Action descriptor with an unrecognised name
launches nothing and leaves the state unchanged (the unconditional
trailing save still runs in that branch). -/
theorem error_cases_are_noops (s : ActivityState) (d : SettingInfo) :
    ((s.selectedSettingIndex - 1 < 0 ∨ s.selectedSettingIndex - 1 ≥ s.settingsCount) →
      toggleCurrentSetting s = (s, ⟨0, none, false⟩)) ∧
    (¬(s.selectedSettingIndex - 1 < 0 ∨ s.selectedSettingIndex - 1 ≥ s.settingsCount) →
      s.settingsList.get? (s.selectedSettingIndex - 1).toNat = some d →
      d.type ≠ .ACTION → d.valuePtr = none →
      toggleCurrentSetting s = (s, ⟨0, none, false⟩)) ∧
    (¬(s.selectedSettingIndex - 1 < 0 ∨ s.selectedSettingIndex - 1 ≥ s.settingsCount) →
      s.settingsList.get? (s.selectedSettingIndex - 1).toNat = some d →
      d.type = .ACTION → d.name ∉ knownActions →
      toggleCurrentSetting s = (s, ⟨1, none, false⟩)) := by
  refine ⟨fun h => toggleCurrentSetting_oob s h, ?_, ?_⟩
  · intro hin hd ht hp
    exact toggleCurrentSetting_unbound s d (by omega) (by omega) hd ht hp
  · intro hin hd ht hn
    rw [toggleCurrentSetting_action s d (by omega) (by omega) hd ht]
    simp [hn]

/-- Witness for `error_cases_are_noops`: confirming with the tab row
focused (index 0, hence descriptor index -1) is ignored. -/
theorem error_cases_are_noops_witness :
    toggleCurrentSetting (onEnter ⟨fun _ => false, fun _ => 0, fun _ => 10⟩) =
      (onEnter ⟨fun _ => false, fun _ => 0, fun _ => 10⟩, ⟨0, none, false⟩) :=
  (error_cases_are_noops (onEnter ⟨fun _ => false, fun _ => 0, fun _ => 10⟩)
    (SettingInfo.Action "Clear Cache")).1 (by norm_num [onEnter])

/-- Iterating the confirm on a focused Enum descriptor advances the bound
field by the iteration count modulo the label count and keeps the
navigation fields fixed. -/
theorem confirmStep_enum_iterate (s : ActivityState) (d : SettingInfo) (f : EnumField)
    (h1 : 1 ≤ s.selectedSettingIndex) (h2 : s.selectedSettingIndex ≤ s.settingsCount)
    (hd : s.settingsList.get? (s.selectedSettingIndex - 1).toNat = some d)
    (ht : d.type = .ENUM) (hp : d.valuePtr = some (.toEnum f))
    (hk1 : 1 ≤ d.enumValues.length) (hk2 : d.enumValues.length ≤ 255)
    (hv : s.settings.enumField f < d.enumValues.length) :
    ∀ n : Nat,
      (confirmStep^[n] s).selectedSettingIndex = s.selectedSettingIndex ∧
      (confirmStep^[n] s).settingsList = s.settingsList ∧
      (confirmStep^[n] s).settingsCount = s.settingsCount ∧
      (confirmStep^[n] s).settings.enumField f =
        (s.settings.enumField f + n) % d.enumValues.length := by
  intro n
  induction n with
  | zero => exact ⟨rfl, rfl, rfl, by simp [Nat.mod_eq_of_lt hv]⟩
  | succ n ih =>
    obtain ⟨i1, i2, i3, i4⟩ := ih
    rw [Function.iterate_succ_apply']
    have hdx : (confirmStep^[n] s).settingsList.get?
        ((confirmStep^[n] s).selectedSettingIndex - 1).toNat = some d := by
      rw [i1, i2]; exact hd
    have ex := toggleCurrentSetting_enum (confirmStep^[n] s) d f (by rw [i1]; exact h1)
      (by rw [i1, i3]; exact h2) hdx ht hp
    have hcs : confirmStep (confirmStep^[n] s) =
        { (confirmStep^[n] s) with settings := (confirmStep^[n] s).settings.setEnum f (((confirmStep^[n] s).settings.enumField f + 1) % (d.enumValues.length % 256)) } := by
      show (toggleCurrentSetting (confirmStep^[n] s)).1 = _
      rw [ex]
    rw [hcs]
    refine ⟨i1, i2, i3, ?_⟩
    show ((confirmStep^[n] s).settings.setEnum f
        (((confirmStep^[n] s).settings.enumField f + 1) % (d.enumValues.length % 256))).enumField f =
      (s.settings.enumField f + (n + 1)) % d.enumValues.length
    simp only [CrossPointSettings.setEnum, if_true]
    rw [i4]
    rw [Nat.mod_eq_of_lt (show d.enumValues.length < 256 by omega)]
    calc ((s.settings.enumField f + n) % d.enumValues.length + 1) % d.enumValues.length
        = (s.settings.enumField f + n + 1) % d.enumValues.length :=
          Nat.ModEq.add_right 1 (Nat.mod_modEq _ _)
      _ = (s.settings.enumField f + (n + 1)) % d.enumValues.length := by ring_nf

/-- C7: confirming a focused Enum descriptor with `k ≥ 1` labels and a
bound value `v < k` sets the field to `(v + 1) % k` (unsigned arithmetic,
wrapping the last label to the first), the result is again a valid label
index, and `k` confirmations return the field to its original value. -/
theorem enum_descriptor_confirm_cycles (s : ActivityState) (d : SettingInfo) (f : EnumField)
    (h1 : 1 ≤ s.selectedSettingIndex) (h2 : s.selectedSettingIndex ≤ s.settingsCount)
    (hd : s.settingsList.get? (s.selectedSettingIndex - 1).toNat = some d)
    (ht : d.type = .ENUM) (hp : d.valuePtr = some (.toEnum f))
    (hk1 : 1 ≤ d.enumValues.length) (hk2 : d.enumValues.length ≤ 255)
    (hv : s.settings.enumField f < d.enumValues.length) :
    (toggleCurrentSetting s).1.settings.enumField f =
      (s.settings.enumField f + 1) % d.enumValues.length ∧
    (toggleCurrentSetting s).1.settings.enumField f < d.enumValues.length ∧
    (confirmStep^[d.enumValues.length] s).settings.enumField f =
      s.settings.enumField f := by
  have hall := confirmStep_enum_iterate s d f h1 h2 hd ht hp hk1 hk2 hv
  have hone := (hall 1).2.2.2
  rw [Function.iterate_one] at hone
  unfold confirmStep at hone
  refine ⟨hone, ?_, ?_⟩
  · rw [hone]
    exact Nat.mod_lt _ (by omega)
  · have hk := (hall d.enumValues.length).2.2.2
    rw [Nat.add_mod_right, Nat.mod_eq_of_lt hv] at hk
    exact hk

/-- Witness for `enum_descriptor_confirm_cycles`: the 6-label Sleep Screen
enum of the Display category, starting at label 0. -/
theorem enum_descriptor_confirm_cycles_witness :
    (toggleCurrentSetting
      ⟨0, 1, displaySettings, 7, false, ⟨fun _ => false, fun _ => 0, fun _ => 10⟩⟩).1.settings.enumField .sleepScreen =
      (((⟨fun _ => false, fun _ => 0, fun _ => 10⟩ : CrossPointSettings).enumField .sleepScreen) + 1) % 6 ∧
    (toggleCurrentSetting
      ⟨0, 1, displaySettings, 7, false, ⟨fun _ => false, fun _ => 0, fun _ => 10⟩⟩).1.settings.enumField .sleepScreen < 6 ∧
    (confirmStep^[6]
      ⟨0, 1, displaySettings, 7, false, ⟨fun _ => false, fun _ => 0, fun _ => 10⟩⟩).settings.enumField .sleepScreen =
      (⟨fun _ => false, fun _ => 0, fun _ => 10⟩ : CrossPointSettings).enumField .sleepScreen :=
  enum_descriptor_confirm_cycles
    ⟨0, 1, displaySettings, 7, false, ⟨fun _ => false, fun _ => 0, fun _ => 10⟩⟩
    (SettingInfo.Enum "Sleep Screen" .sleepScreen
      ["Dark", "Light", "Custom", "Cover", "None", "Cover + Custom"]) .sleepScreen
    (by norm_num) (by norm_num) rfl rfl rfl (by decide) (by decide) (by decide)

/-- Iterating the confirm on a focused Value descriptor with a positive
step eventually stores exactly `min` (the wrap target). -/
theorem confirmStep_value_reaches_min (d : SettingInfo) (f : ValueField)
    (ht : d.type = .VALUE) (hp : d.valuePtr = some (.toValue f))
    (hmin : -128 ≤ d.valueRange.min) (hmax : d.valueRange.max ≤ 127)
    (hstep : 0 < d.valueRange.step) :
    ∀ (fuel : Nat) (s : ActivityState),
      1 ≤ s.selectedSettingIndex → s.selectedSettingIndex ≤ s.settingsCount →
      s.settingsList.get? (s.selectedSettingIndex - 1).toNat = some d →
      d.valueRange.min ≤ s.settings.intField f → s.settings.intField f ≤ d.valueRange.max →
      d.valueRange.max - s.settings.intField f ≤ fuel →
      ∃ n : Nat, 0 < n ∧ (confirmStep^[n] s).settings.intField f = d.valueRange.min := by
  intro fuel
  induction fuel with
  | zero =>
    intro s h1 h2 hd hlo hhi hfuel
    refine ⟨1, Nat.one_pos, ?_⟩
    rw [Function.iterate_one]
    have ev := toggleCurrentSetting_value s d f h1 h2 hd ht hp
    have hcs : confirmStep s = { s with settings := s.settings.setInt f (valueAdvance d.valueRange (s.settings.intField f)) } := by
      show (toggleCurrentSetting s).1 = _
      rw [ev]
    rw [hcs]
    show (s.settings.setInt f (valueAdvance d.valueRange (s.settings.intField f))).intField f = d.valueRange.min
    unfold valueAdvance
    rw [if_pos (by omega)]
    simp only [CrossPointSettings.setInt, if_true]
    omega
  | succ fuel ih =>
    intro s h1 h2 hd hlo hhi hfuel
    by_cases hw : s.settings.intField f + d.valueRange.step > d.valueRange.max
    · refine ⟨1, Nat.one_pos, ?_⟩
      rw [Function.iterate_one]
      have ev := toggleCurrentSetting_value s d f h1 h2 hd ht hp
      have hcs : confirmStep s = { s with settings := s.settings.setInt f (valueAdvance d.valueRange (s.settings.intField f)) } := by
        show (toggleCurrentSetting s).1 = _
        rw [ev]
      rw [hcs]
      show (s.settings.setInt f (valueAdvance d.valueRange (s.settings.intField f))).intField f = d.valueRange.min
      unfold valueAdvance
      rw [if_pos hw]
      simp only [CrossPointSettings.setInt, if_true]
      omega
    · have ev := toggleCurrentSetting_value s d f h1 h2 hd ht hp
      have hcs : confirmStep s = { s with settings := s.settings.setInt f (valueAdvance d.valueRange (s.settings.intField f)) } := by
        show (toggleCurrentSetting s).1 = _
        rw [ev]
      have hv1 : (confirmStep s).settings.intField f = s.settings.intField f + d.valueRange.step := by
        rw [hcs]
        show (s.settings.setInt f (valueAdvance d.valueRange (s.settings.intField f))).intField f = _
        unfold valueAdvance
        rw [if_neg hw]
        simp only [CrossPointSettings.setInt, if_true]
        omega
      obtain ⟨n, hn, hfin⟩ := ih (confirmStep s)
        (by rw [hcs]; exact h1) (by rw [hcs]; exact h2) (by rw [hcs]; exact hd)
        (by rw [hv1]; omega) (by rw [hv1]; omega) (by rw [hv1]; omega)
      exact ⟨n + 1, by omega, by rw [Function.iterate_succ_apply]; exact hfin⟩

/-- C6: confirming a focused Value descriptor with range `{min, max, step}`
(positive step, `int8`-representable bounds) and bound value
`min ≤ v ≤ max` stores `min` when `v + step > max` and `v + step`
otherwise; the result stays in `[min, max]` (so iterated increments never
exceed `max`), and iterated confirms reach exactly `min`. -/
theorem value_descriptor_confirm_wraps (s : ActivityState) (d : SettingInfo) (f : ValueField)
    (h1 : 1 ≤ s.selectedSettingIndex) (h2 : s.selectedSettingIndex ≤ s.settingsCount)
    (hd : s.settingsList.get? (s.selectedSettingIndex - 1).toNat = some d)
    (ht : d.type = .VALUE) (hp : d.valuePtr = some (.toValue f))
    (hmin : -128 ≤ d.valueRange.min) (hmax : d.valueRange.max ≤ 127)
    (hstep : 0 < d.valueRange.step)
    (hlo : d.valueRange.min ≤ s.settings.intField f)
    (hhi : s.settings.intField f ≤ d.valueRange.max) :
    (toggleCurrentSetting s).1.settings.intField f =
      (if s.settings.intField f + d.valueRange.step > d.valueRange.max then d.valueRange.min
       else s.settings.intField f + d.valueRange.step) ∧
    d.valueRange.min ≤ (toggleCurrentSetting s).1.settings.intField f ∧
    (toggleCurrentSetting s).1.settings.intField f ≤ d.valueRange.max ∧
    ∃ n : Nat, 0 < n ∧ (confirmStep^[n] s).settings.intField f = d.valueRange.min := by
  have ev := toggleCurrentSetting_value s d f h1 h2 hd ht hp
  have hval : (toggleCurrentSetting s).1.settings.intField f =
      (if s.settings.intField f + d.valueRange.step > d.valueRange.max then d.valueRange.min
       else s.settings.intField f + d.valueRange.step) := by
    rw [ev]
    show (s.settings.setInt f (valueAdvance d.valueRange (s.settings.intField f))).intField f = _
    unfold valueAdvance
    split_ifs with h
    · simp only [CrossPointSettings.setInt, if_true]
      omega
    · simp only [CrossPointSettings.setInt, if_true]
      omega
  refine ⟨hval, ?_, ?_, ?_⟩
  · rw [hval]; split_ifs <;> omega
  · rw [hval]; split_ifs <;> omega
  · exact confirmStep_value_reaches_min d f ht hp hmin hmax hstep
      (d.valueRange.max - s.settings.intField f).toNat s h1 h2 hd hlo hhi (by omega)

/-- Witness for `value_descriptor_confirm_wraps`: Screen Margin (range
5..40 step 5) at current value 40 wraps to 5 in one confirm. -/
theorem value_descriptor_confirm_wraps_witness :
    (toggleCurrentSetting
      ⟨1, 4, readerSettings, 9, false, ⟨fun _ => false, fun _ => 0, fun _ => 40⟩⟩).1.settings.intField .screenMargin =
      (if (40 : Int) + 5 > 40 then 5 else 40 + 5) ∧
    (5 : Int) ≤ (toggleCurrentSetting
      ⟨1, 4, readerSettings, 9, false, ⟨fun _ => false, fun _ => 0, fun _ => 40⟩⟩).1.settings.intField .screenMargin ∧
    (toggleCurrentSetting
      ⟨1, 4, readerSettings, 9, false, ⟨fun _ => false, fun _ => 0, fun _ => 40⟩⟩).1.settings.intField .screenMargin ≤ 40 ∧
    ∃ n : Nat, 0 < n ∧ (confirmStep^[n]
      ⟨1, 4, readerSettings, 9, false, ⟨fun _ => false, fun _ => 0, fun _ => 40⟩⟩).settings.intField .screenMargin = 5 :=
  value_descriptor_confirm_wraps
    ⟨1, 4, readerSettings, 9, false, ⟨fun _ => false, fun _ => 0, fun _ => 40⟩⟩
    (SettingInfo.Value "Screen Margin" .screenMargin ⟨5, 40, 5⟩) .screenMargin
    (by norm_num) (by norm_num) rfl rfl rfl (by decide) (by decide) (by decide)
    (by decide) (by decide)

/-- C9: a confirm with an item focused (index `i`, `1 ≤ i ≤ count`) whose
descriptor `i-1` is a bound Toggle/Enum/Value operates on that descriptor
only: exactly one settings save, no sub-screen launch, no exit, redraw
marked, focus/category/list/count unchanged, the bound field updated by
its kind's advance, and every other bound field unchanged. -/
theorem confirm_item_mutates_only_target (s : ActivityState) (inp : InputEvents)
    (d : SettingInfo)
    (hc : inp.confirmPressed = true)
    (h1 : 1 ≤ s.selectedSettingIndex) (h2 : s.selectedSettingIndex ≤ s.settingsCount)
    (hd : s.settingsList.get? (s.selectedSettingIndex - 1).toNat = some d)
    (hkp : (∃ f, d.type = .TOGGLE ∧ d.valuePtr = some (.toBool f)) ∨
           (∃ f, d.type = .ENUM ∧ d.valuePtr = some (.toEnum f)) ∨
           (∃ f, d.type = .VALUE ∧ d.valuePtr = some (.toValue f))) :
    (loop inp s).2.saves = 1 ∧
    (loop inp s).2.launched = none ∧
    (loop inp s).2.wentHome = false ∧
    (loop inp s).1.updateRequired = true ∧
    (loop inp s).1.selectedSettingIndex = s.selectedSettingIndex ∧
    (loop inp s).1.selectedCategoryIndex = s.selectedCategoryIndex ∧
    (loop inp s).1.settingsList = s.settingsList ∧
    (loop inp s).1.settingsCount = s.settingsCount ∧
    (∀ g, d.valuePtr ≠ some (.toBool g) →
      (loop inp s).1.settings.boolField g = s.settings.boolField g) ∧
    (∀ g, d.valuePtr ≠ some (.toEnum g) →
      (loop inp s).1.settings.enumField g = s.settings.enumField g) ∧
    (∀ g, d.valuePtr ≠ some (.toValue g) →
      (loop inp s).1.settings.intField g = s.settings.intField g) ∧
    (∀ g, d.valuePtr = some (.toBool g) →
      (loop inp s).1.settings.boolField g = !(s.settings.boolField g)) ∧
    (∀ g, d.valuePtr = some (.toEnum g) →
      (loop inp s).1.settings.enumField g =
        (s.settings.enumField g + 1) % (d.enumValues.length % 256)) ∧
    (∀ g, d.valuePtr = some (.toValue g) →
      (loop inp s).1.settings.intField g =
        (valueAdvance d.valueRange (s.settings.intField g) + 128) % 256 - 128) := by
  have hnA : ¬(inp.confirmPressed = true ∧ s.selectedSettingIndex = 0) := by
    rintro ⟨_, h0⟩
    omega
  rw [loop_eq, if_neg hnA, if_pos hc]
  rcases hkp with ⟨f, ht, hp⟩ | ⟨f, ht, hp⟩ | ⟨f, ht, hp⟩
  · rw [toggleCurrentSetting_toggle s d f h1 h2 hd ht hp]
    refine ⟨rfl, rfl, rfl, rfl, rfl, rfl, rfl, rfl, ?_, ?_, ?_, ?_, ?_, ?_⟩
    · intro g hg
      have hfg : ¬(g = f) := fun he => hg (by rw [he, hp])
      show (s.settings.setBool f (!(s.settings.boolField f))).boolField g = _
      simp [CrossPointSettings.setBool, hfg]
    · intro g _
      rfl
    · intro g _
      rfl
    · intro g hg
      rw [hp] at hg
      simp only [Option.some.injEq, BoundPtr.toBool.injEq] at hg
      subst hg
      show (s.settings.setBool f (!(s.settings.boolField f))).boolField f = _
      simp [CrossPointSettings.setBool]
    · intro g hg
      rw [hp] at hg
      simp at hg
    · intro g hg
      rw [hp] at hg
      simp at hg
  · rw [toggleCurrentSetting_enum s d f h1 h2 hd ht hp]
    refine ⟨rfl, rfl, rfl, rfl, rfl, rfl, rfl, rfl, ?_, ?_, ?_, ?_, ?_, ?_⟩
    · intro g _
      rfl
    · intro g hg
      have hfg : ¬(g = f) := fun he => hg (by rw [he, hp])
      show (s.settings.setEnum f _).enumField g = _
      simp [CrossPointSettings.setEnum, hfg]
    · intro g _
      rfl
    · intro g hg
      rw [hp] at hg
      simp at hg
    · intro g hg
      rw [hp] at hg
      simp only [Option.some.injEq, BoundPtr.toEnum.injEq] at hg
      subst hg
      show (s.settings.setEnum f _).enumField f = _
      simp [CrossPointSettings.setEnum]
    · intro g hg
      rw [hp] at hg
      simp at hg
  · rw [toggleCurrentSetting_value s d f h1 h2 hd ht hp]
    refine ⟨rfl, rfl, rfl, rfl, rfl, rfl, rfl, rfl, ?_, ?_, ?_, ?_, ?_, ?_⟩
    · intro g _
      rfl
    · intro g _
      rfl
    · intro g hg
      cases g
      cases f
      exact absurd hp hg
    · intro g hg
      rw [hp] at hg
      simp at hg
    · intro g hg
      rw [hp] at hg
      simp at hg
    · intro g hg
      cases g
      cases f
      show (s.settings.setInt .screenMargin (valueAdvance d.valueRange (s.settings.intField .screenMargin))).intField .screenMargin = _
      simp [CrossPointSettings.setInt]

/-- Witness for `confirm_item_mutates_only_target`: confirming the
Hyphenation toggle saves once, launches nothing, and flips only its own
field. -/
theorem confirm_item_mutates_only_target_witness :
    (loop ⟨true, false, false, false, false, false, 0⟩
      ⟨1, 6, readerSettings, 9, false, ⟨fun _ => false, fun _ => 0, fun _ => 10⟩⟩).2.saves = 1 ∧
    (loop ⟨true, false, false, false, false, false, 0⟩
      ⟨1, 6, readerSettings, 9, false, ⟨fun _ => false, fun _ => 0, fun _ => 10⟩⟩).2.launched = none ∧
    (loop ⟨true, false, false, false, false, false, 0⟩
      ⟨1, 6, readerSettings, 9, false, ⟨fun _ => false, fun _ => 0, fun _ => 10⟩⟩).1.settings.boolField .hyphenationEnabled =
      !((⟨fun _ => false, fun _ => 0, fun _ => 10⟩ : CrossPointSettings).boolField .hyphenationEnabled) := by
  have h := confirm_item_mutates_only_target
    ⟨1, 6, readerSettings, 9, false, ⟨fun _ => false, fun _ => 0, fun _ => 10⟩⟩
    ⟨true, false, false, false, false, false, 0⟩
    (SettingInfo.Toggle "Hyphenation" .hyphenationEnabled)
    rfl (by norm_num) (by norm_num) rfl
    (Or.inl ⟨.hyphenationEnabled, rfl, rfl⟩)
  exact ⟨h.1, h.2.1, h.2.2.2.2.2.2.2.2.2.2.2.1 .hyphenationEnabled rfl⟩

end CrossPoint
